import Mathlib

/-!
Shallow embedding of the stivale2 boot-protocol bindings (`src/v2/mod.rs`).

Machine memory holding the tag chain is modelled as a heap: a function from
64-bit addresses (as `Nat`, with `0` the null pointer) to the `Stivale2Tag`
node stored there, `none` meaning unmapped memory.  Undefined behaviour
(dereferencing unmapped memory, non-termination of the pointer-chasing loop)
is made explicit: stateful operations return `Option (Option Nat) × S2State`,
where the outer `none` marks undefined behaviour and the inner option is the
Rust `Option<*const ()>` result, a pointer being its address.  The loop in
`get_tag` is given fuel; under the well-formed-chain precondition the result
is independent of any sufficiently large fuel, which expresses termination.
-/

/-- Generic tag node: `struct Stivale2Tag { identifier: u64, next: *const () }`.
`next = 0` is the null pointer terminating the chain. -/
structure Stivale2Tag where
  identifier : Nat
  next : Nat
deriving DecidableEq

/-- Memory holding tag nodes: address to node stored there, `none` = unmapped. -/
abbrev Heap := Nat → Option Stivale2Tag

/-- `struct Stivale2Struct { bootloader_brand: [u8;64], bootloader_version: [u8;64], tags: u64 }`. -/
structure Stivale2Struct where
  bootloader_brand : List Nat
  bootloader_version : List Nat
  tags : Nat

/-- The state a lookup runs in: the heap of tag nodes and the info structure. -/
structure S2State where
  heap : Heap
  struct : Stivale2Struct

def STIVALE2_HEADER_TAG_FRAMEBUFFER_ID : Nat := 0x3ecc1bc43d0f7971

def STIVALE2_HEADER_TAG_TERMINAL_ID : Nat := 0xa85d499b1823be72

def STIVALE2_STRUCT_TAG_FRAMEBUFFER_ID : Nat := 0x506461d2950408fa

def STIVALE2_STRUCT_TAG_TERMINAL_ID : Nat := 0xc2b3f4c3233b0974

/-- The `loop` body of `Stivale2Struct::get_tag`, with fuel making the
pointer chase structurally recursive.  Each iteration: null-check `current`,
dereference it as `*const Stivale2Tag` (unmapped address = undefined
behaviour, outer `none`), compare `identifier`, follow `next`.  Fuel
exhaustion models non-termination, also outer `none`. -/
def getTagLoop (id : Nat) : Nat → Nat → S2State → Option (Option Nat) × S2State
  | 0, _, st => (none, st)
  | fuel + 1, current, st =>
    if current = 0 then (some none, st)
    else
      match st.heap current with
      | none => (none, st)
      | some c =>
        if c.identifier = id then (some (some current), st)
        else getTagLoop id fuel c.next st

/-- `Stivale2Struct::get_tag(&self, id: u64) -> Option<*const ()>`: start the
scan at `self.tags as *const ()`. -/
def Stivale2Struct.get_tag (st : S2State) (id : Nat) (fuel : Nat) :
    Option (Option Nat) × S2State :=
  getTagLoop id fuel st.struct.tags st

/-- `Stivale2Struct::get_terminal`: `get_tag(STIVALE2_STRUCT_TAG_TERMINAL_ID)`,
then cast the found pointer to `*const Stivale2StructTagTerminal` and
reborrow it; the address is unchanged by the cast. -/
def Stivale2Struct.get_terminal (st : S2State) (fuel : Nat) :
    Option (Option Nat) × S2State :=
  match Stivale2Struct.get_tag st STIVALE2_STRUCT_TAG_TERMINAL_ID fuel with
  | (none, st') => (none, st')
  | (some none, st') => (some none, st')
  | (some (some term), st') => (some (some term), st')

/-- `Stivale2Struct::get_framebuffer`: same shape with the framebuffer id. -/
def Stivale2Struct.get_framebuffer (st : S2State) (fuel : Nat) :
    Option (Option Nat) × S2State :=
  match Stivale2Struct.get_tag st STIVALE2_STRUCT_TAG_FRAMEBUFFER_ID fuel with
  | (none, st') => (none, st')
  | (some none, st') => (some none, st')
  | (some (some fb), st') => (some (some fb), st')

/-- `Stivale2Struct::_get::<T>(id)`: `get_tag(id)`, then cast to `*const T`.
The type `T` plays no role in the computation: no validation beyond the
identifier match inside `get_tag`. -/
def Stivale2Struct._get (T : Type) (st : S2State) (id : Nat) (fuel : Nat) :
    Option (Option Nat) × S2State :=
  match Stivale2Struct.get_tag st id fuel with
  | (none, st') => (none, st')
  | (some none, st') => (some none, st')
  | (some (some t), st') => (some (some t), st')

/-- Well-formed chain: the finite, acyclic, null-terminated list of
(address, node) pairs reachable from a head pointer.  `wfChain heap head l`
holds when following `next` from `head` visits exactly the nodes of `l` in
order and ends at the null pointer. -/
inductive wfChain (heap : Heap) : Nat → List (Nat × Stivale2Tag) → Prop where
  | nil : wfChain heap 0 []
  | cons (a : Nat) (t : Stivale2Tag) (rest : List (Nat × Stivale2Tag)) :
      a ≠ 0 → heap a = some t → wfChain heap t.next rest →
      wfChain heap a ((a, t) :: rest)

theorem getTagLoop_wf (id : Nat) (st : S2State) (head : Nat)
    (nodes : List (Nat × Stivale2Tag)) (h : wfChain st.heap head nodes) :
    ∀ fuel, nodes.length < fuel →
      getTagLoop id fuel head st =
        (some ((nodes.find? fun p => p.2.identifier == id).map Prod.fst), st) := by
  induction h with
  | nil =>
    intro fuel hf
    match fuel, hf with
    | f + 1, _ => simp [getTagLoop]
  | cons a t rest ha hheap hrest ih =>
    intro fuel hf
    match fuel, hf with
    | f + 1, hf =>
      by_cases hid : t.identifier = id
      · simp [getTagLoop, ha, hheap, hid]
      · have hrec := ih f (by simpa using Nat.lt_of_succ_lt_succ hf)
        simp [getTagLoop, ha, hheap, hid, hrec]

theorem wfChain_unique (heap : Heap) (a : Nat) (l1 l2 : List (Nat × Stivale2Tag))
    (h1 : wfChain heap a l1) (h2 : wfChain heap a l2) : l1 = l2 := by
  induction h1 generalizing l2 with
  | nil =>
    cases h2 with
    | nil => rfl
    | cons a t rest ha hheap hrest => exact absurd rfl ha
  | cons a t rest ha hheap hrest ih =>
    cases h2 with
    | nil => exact absurd rfl ha
    | cons _ t' rest' ha' hheap' hrest' =>
      have ht : t = t' := by
        have := hheap.symm.trans hheap'
        exact Option.some.inj this
      subst ht
      exact congrArg _ (ih rest' hrest')

theorem wfChain_suffix (heap : Heap) (head : Nat) (l1 : List (Nat × Stivale2Tag))
    (a : Nat) (t : Stivale2Tag) (l2 : List (Nat × Stivale2Tag))
    (h : wfChain heap head (l1 ++ (a, t) :: l2)) : wfChain heap a ((a, t) :: l2) := by
  induction l1 generalizing head with
  | nil =>
    cases h with
    | cons _ _ _ ha hheap hrest => exact wfChain.cons a t l2 ha hheap hrest
  | cons x xs ih =>
    cases h with
    | cons _ _ _ ha hheap hrest => exact ih _ hrest

theorem wfChain_nodup (heap : Heap) (head : Nat) (nodes : List (Nat × Stivale2Tag))
    (h : wfChain heap head nodes) : (nodes.map Prod.fst).Nodup := by
  induction h with
  | nil => simp
  | cons a t rest ha hheap hrest ih =>
    simp only [List.map_cons, List.nodup_cons]
    refine ⟨fun hmem => ?_, ih⟩
    obtain ⟨⟨a', t'⟩, hmem', heq⟩ := List.mem_map.mp hmem
    simp only at heq
    rw [heq] at hmem'
    obtain ⟨s, u, rfl⟩ := List.append_of_mem hmem'
    have h1 : wfChain heap a ((a, t) :: (s ++ (a, t') :: u)) :=
      wfChain.cons a t _ ha hheap hrest
    have h2 : wfChain heap a ((a, t') :: u) :=
      wfChain_suffix heap a ((a, t) :: s) a t' u (by simpa using h1)
    have hlen := congrArg List.length (wfChain_unique heap a _ _ h1 h2)
    simp at hlen
    omega

/-- `struct Stivale2Header { entry_point: *const (), stack: *const (), flags: u64, tags: *const () }`.
Pointers are addresses. -/
structure Stivale2Header where
  entry_point : Nat
  stack : Nat
  flags : Nat
  tags : Nat
deriving DecidableEq

/-- `Stivale2Header::new::<SIZE>(entry_point, stack, flags, tags)`.  The
`stack` argument is a `&[u8; SIZE]`, modelled by its base address; the body
stores `&stack[SIZE - 1]`, i.e. `stackBase + (SIZE - 1)`.  For `SIZE = 0`
the index `SIZE - 1` underflows and the (const) evaluation fails, modelled
as `none`. -/
def Stivale2Header.new (SIZE : Nat) (entry_point : Nat) (stackBase : Nat)
    (flags : Nat) (tags : Nat) : Option Stivale2Header :=
  if SIZE = 0 then none
  else some { entry_point := entry_point, stack := stackBase + (SIZE - 1),
              flags := flags, tags := tags }

/-- `struct Stivale2StructTagTerminal`, packed: identifier u64, next u64,
flags u32, cols u16, rows u16, term_write u64. -/
structure Stivale2StructTagTerminal where
  identifier : Nat
  next : Nat
  flags : Nat
  cols : Nat
  rows : Nat
  term_write : Nat
deriving DecidableEq

/-- A Rust `&str` as passed to the terminal callback: the address of its
bytes (`as_ptr`) and its byte length (`len`). -/
structure RustStr where
  ptr : Nat
  len : Nat
deriving DecidableEq

/-- The foreign call the closure performs: the address invoked and the two
arguments passed, in order. -/
structure TermCall where
  func : Nat
  ptr : Nat
  len : Nat
deriving DecidableEq

/-- `Stivale2StructTagTerminal::get_term_func`: transmute `term_write` to
`extern "C" fn(*const i8, u64)` and return the closure
`move |txt| _term_func(txt.as_ptr() as *const i8, txt.len() as u64)`.
The foreign call is modelled as the call descriptor it produces; the
`as u64` cast truncates the length to 64 bits. -/
def Stivale2StructTagTerminal.get_term_func (t : Stivale2StructTagTerminal) :
    RustStr → TermCall :=
  fun txt => { func := t.term_write, ptr := txt.ptr, len := txt.len % 2 ^ 64 }

/-- Little-endian byte encoding of a `k`-byte unsigned integer. -/
def bytesOfNat : Nat → Nat → List Nat
  | 0, _ => []
  | k + 1, n => n % 256 :: bytesOfNat k (n / 256)

/-- Little-endian byte decoding. -/
def natOfBytes : List Nat → Nat
  | [] => 0
  | b :: bs => b + 256 * natOfBytes bs

theorem bytesOfNat_length (k n : Nat) : (bytesOfNat k n).length = k := by
  induction k generalizing n with
  | zero => rfl
  | succ k ih => simp [bytesOfNat, ih]

theorem natOfBytes_bytesOfNat (k n : Nat) (h : n < 256 ^ k) :
    natOfBytes (bytesOfNat k n) = n := by
  induction k generalizing n with
  | zero =>
    have : n = 0 := Nat.lt_one_iff.mp (by simpa using h)
    simp [bytesOfNat, natOfBytes, this]
  | succ k ih =>
    have hdiv : n / 256 < 256 ^ k := by
      rw [Nat.div_lt_iff_lt_mul (by norm_num)]
      calc n < 256 ^ (k + 1) := h
        _ = 256 ^ k * 256 := by ring
    simp [bytesOfNat, natOfBytes, ih (n / 256) hdiv, Nat.mod_add_div]

/-- Overlay the generic `Stivale2Tag` on a packed byte image: the first 8
bytes are `identifier`, the next 8 are `next`. -/
def Stivale2Tag.decode (bytes : List Nat) : Stivale2Tag :=
  { identifier := natOfBytes (bytes.take 8),
    next := natOfBytes ((bytes.drop 8).take 8) }

theorem decode_u64_header (idv nextv : Nat) (rest : List Nat)
    (h1 : idv < 2 ^ 64) (h2 : nextv < 2 ^ 64) :
    Stivale2Tag.decode (bytesOfNat 8 idv ++ (bytesOfNat 8 nextv ++ rest)) =
      { identifier := idv, next := nextv } := by
  have e : (256 : Nat) ^ 8 = 2 ^ 64 := by norm_num
  have l1 : (bytesOfNat 8 idv).length = 8 := bytesOfNat_length 8 idv
  have l2 : (bytesOfNat 8 nextv).length = 8 := bytesOfNat_length 8 nextv
  have htake : (bytesOfNat 8 idv ++ (bytesOfNat 8 nextv ++ rest)).take 8 =
      bytesOfNat 8 idv := by
    rw [← l1]; exact List.take_left _ _
  have hdrop : (bytesOfNat 8 idv ++ (bytesOfNat 8 nextv ++ rest)).drop 8 =
      bytesOfNat 8 nextv ++ rest := by
    rw [← l1]; exact List.drop_left _ _
  have htake2 : (bytesOfNat 8 nextv ++ rest).take 8 = bytesOfNat 8 nextv := by
    rw [← l2]; exact List.take_left _ _
  simp only [Stivale2Tag.decode, htake, hdrop, htake2]
  rw [natOfBytes_bytesOfNat 8 idv (by rw [e]; exact h1),
    natOfBytes_bytesOfNat 8 nextv (by rw [e]; exact h2)]

/-- `struct Stivale2StructTagFramebuffer`, packed, fields in source order. -/
structure Stivale2StructTagFramebuffer where
  identifier : Nat
  next : Nat
  framebuffer_addr : Nat
  framebuffer_width : Nat
  framebuffer_height : Nat
  framebuffer_pitch : Nat
  framebuffer_bpp : Nat
  memory_model : Nat
  red_mask_size : Nat
  red_mask_shift : Nat
  green_mask_size : Nat
  green_mask_shift : Nat
  blue_mask_size : Nat
  blue_mask_shift : Nat
deriving DecidableEq

/-- `struct Stivale2StructTagCmdline`, packed: identifier u64, next u64, cmdline u64. -/
structure Stivale2StructTagCmdline where
  identifier : Nat
  next : Nat
  cmdline : Nat
deriving DecidableEq

/-- `struct Stivale2MMapEntry`, packed: base u64, length u64, type u32, unsed u32. -/
structure Stivale2MMapEntry where
  base : Nat
  length : Nat
  type : Nat
  unsed : Nat
deriving DecidableEq

/-- `struct Stivale2StructTagMemmap`, packed: identifier u64, next u64,
entries u64, memmap `*const Stivale2MMapEntry` (an address). -/
structure Stivale2StructTagMemmap where
  identifier : Nat
  next : Nat
  entries : Nat
  memmap : Nat
deriving DecidableEq

/-- `enum Stivale2MMapType` with its source discriminants. -/
inductive Stivale2MMapType where
  | Usable
  | Reserved
  | ACPIReclaimable
  | ACPINvs
  | BadMemory
  | BootloaderReclaimable
  | KernelAndModules
  | Framebuffer
deriving DecidableEq

/-- Discriminant values of `Stivale2MMapType` as declared in the source. -/
def Stivale2MMapType.val : Stivale2MMapType → Nat
  | .Usable => 1
  | .Reserved => 2
  | .ACPIReclaimable => 3
  | .ACPINvs => 4
  | .BadMemory => 5
  | .BootloaderReclaimable => 0x1000
  | .KernelAndModules => 0x1001
  | .Framebuffer => 0x1002

/-- `struct Stivale2StructTagEpoch`, packed: identifier u64, next u64, epoch u64. -/
structure Stivale2StructTagEpoch where
  identifier : Nat
  next : Nat
  epoch : Nat
deriving DecidableEq

/-- `struct Stivale2StructTagFirmware`, packed: identifier u64, next u64, flags u64. -/
structure Stivale2StructTagFirmware where
  identifier : Nat
  next : Nat
  flags : Nat
deriving DecidableEq

/-- `struct Stivale2StructTagEFISystemTable`, packed: identifier u64, next u64, system_table u64. -/
structure Stivale2StructTagEFISystemTable where
  identifier : Nat
  next : Nat
  system_table : Nat
deriving DecidableEq

/-- `struct Stivale2StructTagKernelFile`, packed: identifier u64, next u64, kernel_file u64. -/
structure Stivale2StructTagKernelFile where
  identifier : Nat
  next : Nat
  kernel_file : Nat
deriving DecidableEq

/-- Packed byte image of a terminal tag record (`repr(C, packed)`: fields
laid out in declaration order with no padding). -/
def Stivale2StructTagTerminal.encode (t : Stivale2StructTagTerminal) : List Nat :=
  bytesOfNat 8 t.identifier ++ (bytesOfNat 8 t.next ++ (bytesOfNat 4 t.flags ++
    (bytesOfNat 2 t.cols ++ (bytesOfNat 2 t.rows ++ bytesOfNat 8 t.term_write))))

/-- Packed byte image of a framebuffer tag record. -/
def Stivale2StructTagFramebuffer.encode (t : Stivale2StructTagFramebuffer) : List Nat :=
  bytesOfNat 8 t.identifier ++ (bytesOfNat 8 t.next ++ (bytesOfNat 8 t.framebuffer_addr ++
    (bytesOfNat 2 t.framebuffer_width ++ (bytesOfNat 2 t.framebuffer_height ++
    (bytesOfNat 2 t.framebuffer_pitch ++ (bytesOfNat 2 t.framebuffer_bpp ++
    (bytesOfNat 1 t.memory_model ++ (bytesOfNat 1 t.red_mask_size ++
    (bytesOfNat 1 t.red_mask_shift ++ (bytesOfNat 1 t.green_mask_size ++
    (bytesOfNat 1 t.green_mask_shift ++ (bytesOfNat 1 t.blue_mask_size ++
    bytesOfNat 1 t.blue_mask_shift))))))))))))

/-- Packed byte image of a command-line tag record. -/
def Stivale2StructTagCmdline.encode (t : Stivale2StructTagCmdline) : List Nat :=
  bytesOfNat 8 t.identifier ++ (bytesOfNat 8 t.next ++ bytesOfNat 8 t.cmdline)

/-- Packed byte image of a memory-map tag record. -/
def Stivale2StructTagMemmap.encode (t : Stivale2StructTagMemmap) : List Nat :=
  bytesOfNat 8 t.identifier ++ (bytesOfNat 8 t.next ++ (bytesOfNat 8 t.entries ++
    bytesOfNat 8 t.memmap))

/-- Packed byte image of an epoch tag record. -/
def Stivale2StructTagEpoch.encode (t : Stivale2StructTagEpoch) : List Nat :=
  bytesOfNat 8 t.identifier ++ (bytesOfNat 8 t.next ++ bytesOfNat 8 t.epoch)

/-- Packed byte image of a firmware tag record. -/
def Stivale2StructTagFirmware.encode (t : Stivale2StructTagFirmware) : List Nat :=
  bytesOfNat 8 t.identifier ++ (bytesOfNat 8 t.next ++ bytesOfNat 8 t.flags)

/-- Packed byte image of an EFI system table tag record. -/
def Stivale2StructTagEFISystemTable.encode (t : Stivale2StructTagEFISystemTable) : List Nat :=
  bytesOfNat 8 t.identifier ++ (bytesOfNat 8 t.next ++ bytesOfNat 8 t.system_table)

/-- Packed byte image of a kernel-file tag record. -/
def Stivale2StructTagKernelFile.encode (t : Stivale2StructTagKernelFile) : List Nat :=
  bytesOfNat 8 t.identifier ++ (bytesOfNat 8 t.next ++ bytesOfNat 8 t.kernel_file)

/-- Memory holding memory-map rows: byte address to the row stored there. -/
abbrev MMapHeap := Nat → Option Stivale2MMapEntry

/-- Modelled from the spec: the repository declares the memory-map tag and
entry layouts but no iterator over the rows.  Per the spec, iterating the
array reads entry-count-many contiguous fixed-size rows starting at the
memmap pointer; a packed row is 24 bytes, so row i sits at `memmap + 24*i`.
Reading an unmapped address is undefined behaviour, modelled as `none`. -/
def readMMapRows (mem : MMapHeap) : Nat → Nat → Option (List Stivale2MMapEntry)
  | _, 0 => some []
  | addr, k + 1 =>
    match mem addr with
    | none => none
    | some e => (readMMapRows mem (addr + 24) k).map (e :: ·)

/-- Modelled from the spec: iterate a memory-map tag by reading
`t.entries` contiguous rows starting at `t.memmap`. -/
def Stivale2StructTagMemmap.iterate (mem : MMapHeap) (t : Stivale2StructTagMemmap) :
    Option (List Stivale2MMapEntry) :=
  readMMapRows mem t.memmap t.entries

theorem find?_first_of_split (l1 l2 : List (Nat × Stivale2Tag)) (a : Nat)
    (t : Stivale2Tag) (id : Nat) (hl1 : ∀ p ∈ l1, p.2.identifier ≠ id)
    (ht : t.identifier = id) :
    ((l1 ++ (a, t) :: l2).find? fun p => p.2.identifier == id) = some (a, t) := by
  induction l1 with
  | nil =>
    rw [List.nil_append]
    exact List.find?_cons_of_pos _ (by simp [ht])
  | cons x xs ih =>
    have hx : ¬ ((x.2.identifier == id) = true) := by simpa using hl1 x (by simp)
    rw [List.cons_append, List.find?_cons_of_neg _ (by simpa using hx)]
    exact ih fun p hp => hl1 p (by simp [hp])

theorem getTagLoop_state (id fuel current : Nat) (st : S2State) :
    (getTagLoop id fuel current st).2 = st := by
  induction fuel generalizing current with
  | zero => rfl
  | succ f ih =>
    by_cases hc : current = 0
    · simp [getTagLoop, hc]
    · cases hh : st.heap current with
      | none => simp [getTagLoop, hc, hh]
      | some c =>
        by_cases hid : c.identifier = id
        · simp [getTagLoop, hc, hh, hid]
        · simp [getTagLoop, hc, hh, hid, ih]

/-- A two-node demo chain: node at address 10 has identifier 1 and points to
address 20; node at address 20 has identifier 2 and terminates the chain. -/
def demoHeap : Heap := fun a =>
  if a = 10 then some { identifier := 1, next := 20 }
  else if a = 20 then some { identifier := 2, next := 0 }
  else none

def demoSt : S2State :=
  { heap := demoHeap,
    struct := { bootloader_brand := [], bootloader_version := [], tags := 10 } }

def demoNodes : List (Nat × Stivale2Tag) :=
  [(10, { identifier := 1, next := 20 }), (20, { identifier := 2, next := 0 })]

theorem demoSt_wf : wfChain demoSt.heap demoSt.struct.tags demoNodes := by
  refine wfChain.cons 10 { identifier := 1, next := 20 } _ (by decide) rfl ?_
  refine wfChain.cons 20 { identifier := 2, next := 0 } _ (by decide) rfl ?_
  exact wfChain.nil

/-- The same heap with an empty (null-headed) chain. -/
def demoEmptySt : S2State :=
  { heap := demoHeap,
    struct := { bootloader_brand := [], bootloader_version := [], tags := 0 } }

/-- C1: under the finite/acyclic/null-terminated chain precondition,
`get_tag id` returns the first node in head-to-tail order whose identifier
equals `id` (`List.find?` over the chain), returns `None` when no node
carries `id`, and when several nodes share the identifier the head-ward
occurrence wins. -/
theorem get_tag_first_match (st : S2State) (nodes : List (Nat × Stivale2Tag))
    (id : Nat) (h : wfChain st.heap st.struct.tags nodes) :
    (Stivale2Struct.get_tag st id (nodes.length + 1)).1 =
        some ((nodes.find? fun p => p.2.identifier == id).map Prod.fst) ∧
    ((∀ p ∈ nodes, p.2.identifier ≠ id) →
      (Stivale2Struct.get_tag st id (nodes.length + 1)).1 = some none) ∧
    (∀ l1 a t l2, nodes = l1 ++ (a, t) :: l2 → t.identifier = id →
      (∀ p ∈ l1, p.2.identifier ≠ id) →
      (Stivale2Struct.get_tag st id (nodes.length + 1)).1 = some (some a)) := by
  have h1 : (Stivale2Struct.get_tag st id (nodes.length + 1)).1 =
      some ((nodes.find? fun p => p.2.identifier == id).map Prod.fst) := by
    unfold Stivale2Struct.get_tag
    rw [getTagLoop_wf id st st.struct.tags nodes h (nodes.length + 1)
      (Nat.lt_succ_self _)]
  refine ⟨h1, ?_, ?_⟩
  · intro hnone
    rw [h1]
    have hfind : (nodes.find? fun p => p.2.identifier == id) = none := by
      apply List.find?_eq_none.mpr
      intro p hp
      simpa using hnone p hp
    rw [hfind]
    rfl
  · intro l1 a t l2 hsplit hid hl1
    rw [h1, hsplit, find?_first_of_split l1 l2 a t id hl1 hid]
    rfl

/-- C1 witness: on the demo chain, looking up identifier 2 returns the
pointer 20 carrying it. -/
theorem get_tag_first_match_witness :
    wfChain demoSt.heap demoSt.struct.tags demoNodes ∧
    (Stivale2Struct.get_tag demoSt 2 (demoNodes.length + 1)).1 = some (some 20) :=
  ⟨demoSt_wf, by
    rw [(get_tag_first_match demoSt demoNodes 2 demoSt_wf).1]
    decide⟩

/-- C2: each typed accessor is exactly the tag walker at its fixed
identifier followed by a pointer cast: `get_terminal`, `get_framebuffer`
and `_get T id` return the very pair `get_tag` returns (same presence, same
address, same state), with the type `T` playing no role. -/
theorem typed_accessors_refine (st : S2State) (fuel id : Nat) (T : Type) :
    Stivale2Struct.get_terminal st fuel =
      Stivale2Struct.get_tag st STIVALE2_STRUCT_TAG_TERMINAL_ID fuel ∧
    Stivale2Struct.get_framebuffer st fuel =
      Stivale2Struct.get_tag st STIVALE2_STRUCT_TAG_FRAMEBUFFER_ID fuel ∧
    Stivale2Struct._get T st id fuel = Stivale2Struct.get_tag st id fuel := by
  refine ⟨?_, ?_, ?_⟩
  · unfold Stivale2Struct.get_terminal
    rcases hg : Stivale2Struct.get_tag st STIVALE2_STRUCT_TAG_TERMINAL_ID fuel
      with ⟨r, st'⟩
    rcases r with _ | (_ | t) <;> rfl
  · unfold Stivale2Struct.get_framebuffer
    rcases hg : Stivale2Struct.get_tag st STIVALE2_STRUCT_TAG_FRAMEBUFFER_ID fuel
      with ⟨r, st'⟩
    rcases r with _ | (_ | t) <;> rfl
  · unfold Stivale2Struct._get
    rcases hg : Stivale2Struct.get_tag st id fuel with ⟨r, st'⟩
    rcases r with _ | (_ | t) <;> rfl

/-- C3: the lookup signals failure only as an explicit absent result: under
the chain precondition `get_tag` returns `Some pointer` or `None` (outer
layer defined, so no panic and no undefined behaviour), and on a chain of
length 0 (null head) it returns `None` for every identifier. -/
theorem get_tag_absence_only (st : S2State) (nodes : List (Nat × Stivale2Tag))
    (id fuel : Nat) (h : wfChain st.heap st.struct.tags nodes) :
    ((Stivale2Struct.get_tag st id (nodes.length + 1)).1 = some none ∨
      ∃ a, (Stivale2Struct.get_tag st id (nodes.length + 1)).1 = some (some a)) ∧
    (st.struct.tags = 0 →
      (Stivale2Struct.get_tag st id (fuel + 1)).1 = some none) := by
  constructor
  · have hmain := getTagLoop_wf id st st.struct.tags nodes h (nodes.length + 1)
      (Nat.lt_succ_self _)
    unfold Stivale2Struct.get_tag
    rw [hmain]
    cases hfind : nodes.find? fun p => p.2.identifier == id with
    | none => left; rfl
    | some p => right; exact ⟨p.1, rfl⟩
  · intro h0
    unfold Stivale2Struct.get_tag
    rw [h0]
    simp [getTagLoop]

/-- C3 witness: on the empty chain, looking up identifier 5 returns `None`
as a defined result. -/
theorem get_tag_absence_only_witness :
    wfChain demoEmptySt.heap demoEmptySt.struct.tags [] ∧
    (((Stivale2Struct.get_tag demoEmptySt 5
        (([] : List (Nat × Stivale2Tag)).length + 1)).1 = some none ∨
      ∃ a, (Stivale2Struct.get_tag demoEmptySt 5
        (([] : List (Nat × Stivale2Tag)).length + 1)).1 = some (some a)) ∧
     (demoEmptySt.struct.tags = 0 →
       (Stivale2Struct.get_tag demoEmptySt 5 (0 + 1)).1 = some none)) :=
  ⟨wfChain.nil, get_tag_absence_only demoEmptySt [] 5 0 wfChain.nil⟩

/-- C4: under the chain precondition `get_tag` is total: every fuel above
the chain length yields the same defined result (the unbounded source loop
terminates), and the chain's addresses are pairwise distinct, so the linear
head-to-tail scan visits each node at most once. -/
theorem get_tag_total (st : S2State) (nodes : List (Nat × Stivale2Tag))
    (id fuel : Nat) (h : wfChain st.heap st.struct.tags nodes)
    (hf : nodes.length < fuel) :
    (∃ r : Option Nat, (Stivale2Struct.get_tag st id fuel).1 = some r ∧
      ∀ fuel', nodes.length < fuel' →
        (Stivale2Struct.get_tag st id fuel').1 = some r) ∧
    (nodes.map Prod.fst).Nodup := by
  refine ⟨⟨(nodes.find? fun p => p.2.identifier == id).map Prod.fst, ?_, ?_⟩,
    wfChain_nodup st.heap st.struct.tags nodes h⟩
  · unfold Stivale2Struct.get_tag
    rw [getTagLoop_wf id st st.struct.tags nodes h fuel hf]
  · intro fuel' hf'
    unfold Stivale2Struct.get_tag
    rw [getTagLoop_wf id st st.struct.tags nodes h fuel' hf']

/-- C4 witness: the demo chain satisfies the precondition and lookup of the
absent identifier 7 terminates with a defined result at fuel 5. -/
theorem get_tag_total_witness :
    wfChain demoSt.heap demoSt.struct.tags demoNodes ∧
    ((∃ r : Option Nat, (Stivale2Struct.get_tag demoSt 7 5).1 = some r ∧
        ∀ fuel', demoNodes.length < fuel' →
          (Stivale2Struct.get_tag demoSt 7 fuel').1 = some r) ∧
      (demoNodes.map Prod.fst).Nodup) :=
  ⟨demoSt_wf, get_tag_total demoSt demoNodes 7 5 demoSt_wf (by decide)⟩

/-- C5: whenever `Stivale2Header::new` produces a header, its `stack` field
is the highest address of the reserved `SIZE`-byte stack region
(`stackBase + (SIZE - 1)`, an upper bound for every byte of the region, as
the stack grows down) and `entry_point`, `flags` and `tags` are the
arguments unmodified. -/
theorem header_new_fields (SIZE ep base flags tags : Nat) (hdr : Stivale2Header)
    (h : Stivale2Header.new SIZE ep base flags tags = some hdr) :
    hdr.entry_point = ep ∧ hdr.flags = flags ∧ hdr.tags = tags ∧
    hdr.stack = base + (SIZE - 1) ∧ ∀ i, i < SIZE → base + i ≤ hdr.stack := by
  rcases SIZE with _ | S
  · simp [Stivale2Header.new] at h
  · have h' : hdr = { entry_point := ep, stack := base + (S + 1 - 1),
                      flags := flags, tags := tags } := by
      simp only [Stivale2Header.new, Nat.succ_ne_zero, if_false,
        Option.some.injEq] at h
      exact h.symm
    subst h'
    refine ⟨rfl, rfl, rfl, rfl, ?_⟩
    intro i hi
    simp only
    omega

/-- C5 witness: a 4096-byte stack based at 1000 gives stack top 5095 and
the other fields pass through. -/
theorem header_new_fields_witness :
    Stivale2Header.new 4096 7 1000 3 5 =
      some { entry_point := 7, stack := 5095, flags := 3, tags := 5 } ∧
    (({ entry_point := 7, stack := 5095, flags := 3, tags := 5 } :
        Stivale2Header).entry_point = 7 ∧
      ({ entry_point := 7, stack := 5095, flags := 3, tags := 5 } :
        Stivale2Header).flags = 3 ∧
      ({ entry_point := 7, stack := 5095, flags := 3, tags := 5 } :
        Stivale2Header).tags = 5 ∧
      ({ entry_point := 7, stack := 5095, flags := 3, tags := 5 } :
        Stivale2Header).stack = 1000 + (4096 - 1) ∧
      ∀ i, i < 4096 → 1000 + i ≤
        ({ entry_point := 7, stack := 5095, flags := 3, tags := 5 } :
          Stivale2Header).stack) :=
  ⟨by decide, header_new_fields 4096 7 1000 3 5 _ (by decide)⟩

/-- C6: the closure returned by `get_term_func` invokes the function stored
at `term_write` with exactly the pointer to the string's bytes and its
length as a `u64`; for the empty string this is a defined call whose length
argument is 0. -/
theorem get_term_func_call (t : Stivale2StructTagTerminal) (s : RustStr)
    (h : s.len < 2 ^ 64) :
    t.get_term_func s = { func := t.term_write, ptr := s.ptr, len := s.len } ∧
    (s.len = 0 → (t.get_term_func s).len = 0) := by
  have hlen : s.len % 2 ^ 64 = s.len := Nat.mod_eq_of_lt h
  constructor
  · unfold Stivale2StructTagTerminal.get_term_func
    rw [hlen]
  · intro h0
    unfold Stivale2StructTagTerminal.get_term_func
    simp [h0]

/-- A demo terminal tag whose `term_write` address is 77. -/
def demoTerm : Stivale2StructTagTerminal :=
  { identifier := 5, next := 0, flags := 0, cols := 80, rows := 25,
    term_write := 77 }

/-- A demo empty string whose bytes sit at address 300. -/
def demoStr : RustStr := { ptr := 300, len := 0 }

/-- C6 witness: calling the closure of a terminal tag whose `term_write` is
77 on the empty string at address 300 invokes 77 with pointer 300 and
length 0. -/
theorem get_term_func_call_witness :
    demoStr.len < 2 ^ 64 ∧
    (demoTerm.get_term_func demoStr = { func := 77, ptr := 300, len := 0 } ∧
      (demoStr.len = 0 → (demoTerm.get_term_func demoStr).len = 0)) :=
  ⟨by decide, get_term_func_call demoTerm demoStr (by decide)⟩

/-- C7: prefix stability of the packed layouts: for each concrete tag
record shape (terminal, framebuffer, command line, memory map, epoch,
firmware, EFI system table, kernel file), overlaying the generic
`Stivale2Tag` on the record's byte image reads back exactly the identifier
(and next pointer) the record stores, whatever follows the 16-byte
header. -/
theorem tag_header_overlay :
    (∀ t : Stivale2StructTagTerminal, t.identifier < 2 ^ 64 → t.next < 2 ^ 64 →
      Stivale2Tag.decode t.encode = { identifier := t.identifier, next := t.next }) ∧
    (∀ t : Stivale2StructTagFramebuffer, t.identifier < 2 ^ 64 → t.next < 2 ^ 64 →
      Stivale2Tag.decode t.encode = { identifier := t.identifier, next := t.next }) ∧
    (∀ t : Stivale2StructTagCmdline, t.identifier < 2 ^ 64 → t.next < 2 ^ 64 →
      Stivale2Tag.decode t.encode = { identifier := t.identifier, next := t.next }) ∧
    (∀ t : Stivale2StructTagMemmap, t.identifier < 2 ^ 64 → t.next < 2 ^ 64 →
      Stivale2Tag.decode t.encode = { identifier := t.identifier, next := t.next }) ∧
    (∀ t : Stivale2StructTagEpoch, t.identifier < 2 ^ 64 → t.next < 2 ^ 64 →
      Stivale2Tag.decode t.encode = { identifier := t.identifier, next := t.next }) ∧
    (∀ t : Stivale2StructTagFirmware, t.identifier < 2 ^ 64 → t.next < 2 ^ 64 →
      Stivale2Tag.decode t.encode = { identifier := t.identifier, next := t.next }) ∧
    (∀ t : Stivale2StructTagEFISystemTable, t.identifier < 2 ^ 64 → t.next < 2 ^ 64 →
      Stivale2Tag.decode t.encode = { identifier := t.identifier, next := t.next }) ∧
    (∀ t : Stivale2StructTagKernelFile, t.identifier < 2 ^ 64 → t.next < 2 ^ 64 →
      Stivale2Tag.decode t.encode = { identifier := t.identifier, next := t.next }) := by
  refine ⟨fun t h1 h2 => ?_, fun t h1 h2 => ?_, fun t h1 h2 => ?_,
    fun t h1 h2 => ?_, fun t h1 h2 => ?_, fun t h1 h2 => ?_,
    fun t h1 h2 => ?_, fun t h1 h2 => ?_⟩
  · exact decode_u64_header t.identifier t.next _ h1 h2
  · exact decode_u64_header t.identifier t.next _ h1 h2
  · exact decode_u64_header t.identifier t.next _ h1 h2
  · exact decode_u64_header t.identifier t.next _ h1 h2
  · exact decode_u64_header t.identifier t.next _ h1 h2
  · exact decode_u64_header t.identifier t.next _ h1 h2
  · exact decode_u64_header t.identifier t.next _ h1 h2
  · exact decode_u64_header t.identifier t.next _ h1 h2

/-- A demo terminal record carrying the protocol's terminal identifier. -/
def demoOverlayTerm : Stivale2StructTagTerminal :=
  { identifier := STIVALE2_STRUCT_TAG_TERMINAL_ID, next := 0, flags := 0,
    cols := 80, rows := 25, term_write := 0 }

/-- C7 witness: a concrete terminal record carrying the terminal identifier
decodes back to that identifier through the generic tag overlay. -/
theorem tag_header_overlay_witness :
    (demoOverlayTerm.identifier < 2 ^ 64 ∧ demoOverlayTerm.next < 2 ^ 64) ∧
    Stivale2Tag.decode demoOverlayTerm.encode =
      { identifier := STIVALE2_STRUCT_TAG_TERMINAL_ID, next := 0 } :=
  ⟨⟨by decide, by decide⟩,
    tag_header_overlay.1 demoOverlayTerm (by decide) (by decide)⟩

/-- C8: every lookup is a pure read: the state returned by `get_tag`,
`get_terminal`, `get_framebuffer` and `_get` is the input state, so the
info structure's fields and the identifier and next of every node in the
heap are unchanged. -/
theorem lookups_pure (st : S2State) (id fuel : Nat) (T : Type) :
    (Stivale2Struct.get_tag st id fuel).2 = st ∧
    (∀ a, (Stivale2Struct.get_tag st id fuel).2.heap a = st.heap a) ∧
    (Stivale2Struct.get_tag st id fuel).2.struct.bootloader_brand =
      st.struct.bootloader_brand ∧
    (Stivale2Struct.get_tag st id fuel).2.struct.bootloader_version =
      st.struct.bootloader_version ∧
    (Stivale2Struct.get_tag st id fuel).2.struct.tags = st.struct.tags ∧
    (Stivale2Struct.get_terminal st fuel).2 = st ∧
    (Stivale2Struct.get_framebuffer st fuel).2 = st ∧
    (Stivale2Struct._get T st id fuel).2 = st := by
  have hgt : ∀ id', (Stivale2Struct.get_tag st id' fuel).2 = st := fun id' =>
    getTagLoop_state id' fuel st.struct.tags st
  have hterm : (Stivale2Struct.get_terminal st fuel).2 = st := by
    unfold Stivale2Struct.get_terminal
    rcases hg : Stivale2Struct.get_tag st STIVALE2_STRUCT_TAG_TERMINAL_ID fuel
      with ⟨r, st'⟩
    have hst : st' = st := by
      have h2 := hgt STIVALE2_STRUCT_TAG_TERMINAL_ID
      rw [hg] at h2
      exact h2
    rcases r with _ | (_ | t) <;> simpa using hst
  have hfb : (Stivale2Struct.get_framebuffer st fuel).2 = st := by
    unfold Stivale2Struct.get_framebuffer
    rcases hg : Stivale2Struct.get_tag st STIVALE2_STRUCT_TAG_FRAMEBUFFER_ID fuel
      with ⟨r, st'⟩
    have hst : st' = st := by
      have h2 := hgt STIVALE2_STRUCT_TAG_FRAMEBUFFER_ID
      rw [hg] at h2
      exact h2
    rcases r with _ | (_ | t) <;> simpa using hst
  have hget : (Stivale2Struct._get T st id fuel).2 = st := by
    unfold Stivale2Struct._get
    rcases hg : Stivale2Struct.get_tag st id fuel with ⟨r, st'⟩
    have hst : st' = st := by
      have h2 := hgt id
      rw [hg] at h2
      exact h2
    rcases r with _ | (_ | t) <;> simpa using hst
  exact ⟨hgt id, fun a => by rw [hgt id], by rw [hgt id], by rw [hgt id],
    by rw [hgt id], hterm, hfb, hget⟩

/-- The two-row demo memory map of the spec's concrete scenario, based at
address 0x1000; packed rows are 24 bytes, so the second row is at 0x1018. -/
def mmapDemoMem : MMapHeap := fun a =>
  if a = 0x1000 then
    some { base := 0, length := 0x9000, type := Stivale2MMapType.Usable.val,
           unsed := 0 }
  else if a = 0x1018 then
    some { base := 0x9000, length := 0x1000,
           type := Stivale2MMapType.Reserved.val, unsed := 0 }
  else none

def mmapDemoTag : Stivale2StructTagMemmap :=
  { identifier := 0, next := 0, entries := 2, memmap := 0x1000 }

/-- C9: iterating the memory-map tag whose entry count is 2 over the array
base 0, length 0x9000, Usable and base 0x9000, length 0x1000, Reserved
yields exactly those two rows in array order with no truncation. -/
theorem memmap_iteration_two_rows :
    Stivale2StructTagMemmap.iterate mmapDemoMem mmapDemoTag =
      some [{ base := 0, length := 0x9000, type := Stivale2MMapType.Usable.val,
              unsed := 0 },
            { base := 0x9000, length := 0x1000,
              type := Stivale2MMapType.Reserved.val, unsed := 0 }] := by
  decide

/-- C10: `Stivale2Header::new` requires a non-empty stack array: at
`SIZE = 0` the index `SIZE - 1` is out of bounds and the const evaluation
fails, while every `SIZE ≥ 1` produces a header. -/
theorem header_new_zero_size (ep base flags tags : Nat) :
    Stivale2Header.new 0 ep base flags tags = none ∧
    ∀ SIZE, 1 ≤ SIZE →
      ∃ hdr, Stivale2Header.new SIZE ep base flags tags = some hdr := by
  constructor
  · rfl
  · intro SIZE h1
    unfold Stivale2Header.new
    rw [if_neg (by omega)]
    exact ⟨_, rfl⟩

/-- C10 witness: size 0 fails, size 64 succeeds. -/
theorem header_new_zero_size_witness :
    Stivale2Header.new 0 11 500 1 0 = none ∧
    (1 ≤ 64 ∧ ∃ hdr, Stivale2Header.new 64 11 500 1 0 = some hdr) :=
  ⟨(header_new_zero_size 11 500 1 0).1,
    by decide, (header_new_zero_size 11 500 1 0).2 64 (by decide)⟩
